import Mathlib

/-!
Verification of the MikroTik RouterOS API client (mikro-routeros).

The development shallowly embeds the client's wire-protocol code:
the variable-width length codec (`encodeLength` / `decodeLength`), the
word/sentence framer (`parseSentences`, embedded as the fuel-indexed
`parseLoop` because the source loop does not always terminate), the
session's accumulate-and-parse data cycle (`feedChunks`), and the
per-command dispatch logic (parameter prefixes, the `!fatal` retry
policy, timeout resolution, and the legacy login response).

Buffers are modelled as `List Nat` (one entry per byte); JavaScript
numbers produced by 32-bit bitwise operators are modelled as `Int` via
`toInt32` where the source can leave the nonnegative range.  Words are
kept as their raw byte sequences; the source additionally decodes each
word's bytes to a UTF-8 string, a per-word postprocessing step that
plays no role in framing.
-/

namespace MikroRouterOS

/-- JavaScript's `ToInt32` applied to a nonnegative integer: the value of a
32-bit bitwise operation whose bit pattern is `n % 2^32`. -/
def toInt32 (n : Nat) : Int :=
  let m := n % 4294967296
  if m < 2147483648 then (m : Int) else (m : Int) - 4294967296

/-- `encodeLength(len)` from the client source: encode a word length as a
self-terminating 1-5 byte prefix (high bits of the first byte give the width). -/
def encodeLength (len : Nat) : List Nat :=
  if len < 0x80 then [len]
  else if len < 0x4000 then [(len >>> 8) ||| 0x80, len &&& 0xff]
  else if len < 0x200000 then
    [(len >>> 16) ||| 0xc0, (len >>> 8) &&& 0xff, len &&& 0xff]
  else if len < 0x10000000 then
    [(len >>> 24) ||| 0xe0, (len >>> 16) &&& 0xff, (len >>> 8) &&& 0xff, len &&& 0xff]
  else
    [0xf0, (len >>> 24) &&& 0xff, (len >>> 16) &&& 0xff, (len >>> 8) &&& 0xff, len &&& 0xff]

/-- `decodeLength(buffer, offset)` from the client source.  The offset is an
`Int` because the enclosing parse loop manipulates plain JavaScript numbers.
A negative offset reads `undefined` from the buffer in the source, every
marker test on the resulting `NaN` is false, and the function returns `null`;
the `off < 0` branch mirrors that.  On success the decoded length is returned
as the 32-bit signed value the JavaScript `|` chain produces, together with
the number of prefix bytes consumed. -/
def decodeLength (b : List Nat) (off : Int) : Option (Int × Nat) :=
  if (b.length : Int) ≤ off then none
  else if off < 0 then none
  else
    let o := off.toNat
    let firstByte := b.getD o 0
    if firstByte &&& 0x80 = 0 then
      some ((firstByte : Int), 1)
    else if firstByte &&& 0xc0 = 0x80 then
      if (b.length : Int) ≤ off + 1 then none
      else some (((((firstByte &&& 0x3f) <<< 8) ||| b.getD (o+1) 0 : Nat) : Int), 2)
    else if firstByte &&& 0xe0 = 0xc0 then
      if (b.length : Int) ≤ off + 2 then none
      else some (((((firstByte &&& 0x1f) <<< 16) ||| (b.getD (o+1) 0 <<< 8) |||
        b.getD (o+2) 0 : Nat) : Int), 3)
    else if firstByte &&& 0xf0 = 0xe0 then
      if (b.length : Int) ≤ off + 3 then none
      else some (((((firstByte &&& 0x0f) <<< 24) ||| (b.getD (o+1) 0 <<< 16) |||
        (b.getD (o+2) 0 <<< 8) ||| b.getD (o+3) 0 : Nat) : Int), 4)
    else if firstByte = 0xf0 then
      if (b.length : Int) ≤ off + 4 then none
      else some (toInt32 ((b.getD (o+1) 0 <<< 24) ||| (b.getD (o+2) 0 <<< 16) |||
        (b.getD (o+3) 0 <<< 8) ||| b.getD (o+4) 0), 5)
    else none

/-- The number of bytes the leading byte's marker implies, following exactly
the branch tests of `decodeLength`; `none` for the invalid markers 0xF1-0xFF. -/
def markerWidth (fb : Nat) : Option Nat :=
  if fb &&& 0x80 = 0 then some 1
  else if fb &&& 0xc0 = 0x80 then some 2
  else if fb &&& 0xe0 = 0xc0 then some 3
  else if fb &&& 0xf0 = 0xe0 then some 4
  else if fb = 0xf0 then some 5
  else none

/-- C4: the length codec round-trips at every boundary value listed by the
spec: decoding the buffer produced by `encodeLength` yields the original
value with the consumed byte count equal to the encoded width. -/
theorem length_codec_roundtrip_boundaries :
    (decodeLength (encodeLength 0) 0 = some (0, (encodeLength 0).length))
    ∧ (decodeLength (encodeLength 127) 0 = some (127, (encodeLength 127).length))
    ∧ (decodeLength (encodeLength 128) 0 = some (128, (encodeLength 128).length))
    ∧ (decodeLength (encodeLength 16383) 0 = some (16383, (encodeLength 16383).length))
    ∧ (decodeLength (encodeLength 16384) 0 = some (16384, (encodeLength 16384).length))
    ∧ (decodeLength (encodeLength 2097151) 0 = some (2097151, (encodeLength 2097151).length))
    ∧ (decodeLength (encodeLength 2097152) 0 = some (2097152, (encodeLength 2097152).length))
    ∧ (decodeLength (encodeLength 268435455) 0 = some (268435455, (encodeLength 268435455).length))
    ∧ (decodeLength (encodeLength 268435456) 0 = some (268435456, (encodeLength 268435456).length)) := by
  decide

theorem getD_append_of_lt (b ext : List Nat) (i : Nat) (h : i < b.length) :
    (b ++ ext).getD i 0 = b.getD i 0 := by
  rw [List.getD_eq_getElem?_getD, List.getD_eq_getElem?_getD, List.getElem?_append_left h]

/-- C10: whenever the byte at the given offset lies in the invalid-marker
range 0xF1-0xFF, `decodeLength` returns `none` — exactly the result it returns
for insufficient data (`markerWidth` likewise records no width) — so an
invalid length marker is never distinguished from a truncated prefix and is
never reported as a decode error. -/
theorem invalid_marker_indistinguishable :
    ∀ (b : List Nat) (off fb : Nat), b[off]? = some fb →
      0xF1 ≤ fb → fb ≤ 0xFF →
      decodeLength b (off : Int) = none ∧ markerWidth fb = none := by
  intro b off fb hget hlo hhi
  have hlt : off < b.length := by
    by_contra hc
    rw [List.getElem?_eq_none_iff.mpr (by omega)] at hget
    exact Option.noConfusion hget
  have hgetD : b.getD off 0 = fb := by
    rw [List.getD_eq_getElem?_getD, hget]
    rfl
  have h1 : ¬(fb &&& 0x80 = 0) := by interval_cases fb <;> decide
  have h2 : ¬(fb &&& 0xc0 = 0x80) := by interval_cases fb <;> decide
  have h3 : ¬(fb &&& 0xe0 = 0xc0) := by interval_cases fb <;> decide
  have h4 : ¬(fb &&& 0xf0 = 0xe0) := by interval_cases fb <;> decide
  have h5 : ¬(fb = 0xf0) := by omega
  constructor
  · simp only [decodeLength, Int.toNat_natCast, hgetD]
    rw [if_neg (by omega), if_neg (by omega), if_neg h1, if_neg h2, if_neg h3,
      if_neg h4, if_neg h5]
  · simp only [markerWidth]
    rw [if_neg h1, if_neg h2, if_neg h3, if_neg h4, if_neg h5]

/-- C10 witness: `decodeLength` at the concrete invalid marker byte 0xF5. -/
theorem invalid_marker_indistinguishable_witness :
    decodeLength [0xF5] 0 = none ∧ markerWidth 0xF5 = none :=
  invalid_marker_indistinguishable [0xF5] 0 0xF5 (by decide) (by decide) (by decide)

/-- C5: `decodeLength` signals truncation as `none` and never observes bytes
outside the supplied buffer: (1) an offset at or past the end yields `none`;
(2) whenever fewer bytes are available after the offset than the leading
byte's marker implies, the result is `none` (signalled, never thrown — the
embedding is a total function into `Option`); (3) a successful decode is
unchanged by appending arbitrary bytes, i.e. it never depended on data beyond
the supplied buffer's bounds. -/
theorem decodeLength_truncation_safety :
    ∀ (b : List Nat) (off : Nat),
      (b.length ≤ off → decodeLength b (off : Int) = none)
      ∧ (∀ fb w, b[off]? = some fb → markerWidth fb = some w →
          b.length < off + w → decodeLength b (off : Int) = none)
      ∧ (∀ (ext : List Nat) (r : Int × Nat), decodeLength b (off : Int) = some r →
          decodeLength (b ++ ext) (off : Int) = some r) := by
  intro b off
  refine ⟨?_, ?_, ?_⟩
  · intro h
    simp only [decodeLength]
    rw [if_pos (by omega)]
  · intro fb w hget hmw hlack
    have hlt : off < b.length := by
      by_contra hc
      rw [List.getElem?_eq_none_iff.mpr (by omega)] at hget
      exact Option.noConfusion hget
    have hgetD : b.getD off 0 = fb := by
      rw [List.getD_eq_getElem?_getD, hget]
      rfl
    simp only [markerWidth] at hmw
    split_ifs at hmw with h1 h2 h3 h4 h5
    · obtain rfl := Option.some.inj hmw
      exact absurd hlack (by omega)
    · obtain rfl := Option.some.inj hmw
      simp only [decodeLength, Int.toNat_natCast, hgetD]
      rw [if_neg (by omega), if_neg (by omega), if_neg h1, if_pos h2,
        if_pos (by omega)]
    · obtain rfl := Option.some.inj hmw
      simp only [decodeLength, Int.toNat_natCast, hgetD]
      rw [if_neg (by omega), if_neg (by omega), if_neg h1, if_neg h2, if_pos h3,
        if_pos (by omega)]
    · obtain rfl := Option.some.inj hmw
      simp only [decodeLength, Int.toNat_natCast, hgetD]
      rw [if_neg (by omega), if_neg (by omega), if_neg h1, if_neg h2, if_neg h3,
        if_pos h4, if_pos (by omega)]
    · obtain rfl := Option.some.inj hmw
      simp only [decodeLength, Int.toNat_natCast, hgetD]
      rw [if_neg (by omega), if_neg (by omega), if_neg h1, if_neg h2, if_neg h3,
        if_neg h4, if_pos h5, if_pos (by omega)]
  · intro ext r hr
    have hofflt : off < b.length := by
      by_contra hc
      simp only [decodeLength] at hr
      rw [if_pos (by omega)] at hr
      exact Option.noConfusion hr
    by_cases h1 : b.getD off 0 &&& 0x80 = 0
    · have e1 : decodeLength b (off : Int) = some ((b.getD off 0 : Int), 1) := by
        simp only [decodeLength, Int.toNat_natCast]
        rw [if_neg (by omega), if_neg (by omega), if_pos h1]
      simp only [decodeLength, Int.toNat_natCast]
      rw [if_neg (by simp only [List.length_append]; omega), if_neg (by omega),
        getD_append_of_lt b ext off hofflt, if_pos h1]
      rw [e1] at hr
      exact hr
    · by_cases h2 : b.getD off 0 &&& 0xc0 = 0x80
      · have hg : ¬((b.length : Int) ≤ (off : Int) + 1) := by
          intro hgle
          simp only [decodeLength, Int.toNat_natCast] at hr
          rw [if_neg (by omega), if_neg (by omega), if_neg h1, if_pos h2,
            if_pos hgle] at hr
          exact Option.noConfusion hr
        have e1 := hr
        simp only [decodeLength, Int.toNat_natCast] at e1 ⊢
        rw [if_neg (by omega), if_neg (by omega), if_neg h1, if_pos h2,
          if_neg hg] at e1
        rw [if_neg (by simp only [List.length_append]; omega), if_neg (by omega),
          getD_append_of_lt b ext off hofflt, if_neg h1, if_pos h2,
          if_neg (by simp only [List.length_append]; omega),
          getD_append_of_lt b ext (off + 1) (by omega)]
        exact e1
      · by_cases h3 : b.getD off 0 &&& 0xe0 = 0xc0
        · have hg : ¬((b.length : Int) ≤ (off : Int) + 2) := by
            intro hgle
            simp only [decodeLength, Int.toNat_natCast] at hr
            rw [if_neg (by omega), if_neg (by omega), if_neg h1, if_neg h2,
              if_pos h3, if_pos hgle] at hr
            exact Option.noConfusion hr
          have e1 := hr
          simp only [decodeLength, Int.toNat_natCast] at e1 ⊢
          rw [if_neg (by omega), if_neg (by omega), if_neg h1, if_neg h2,
            if_pos h3, if_neg hg] at e1
          rw [if_neg (by simp only [List.length_append]; omega), if_neg (by omega),
            getD_append_of_lt b ext off hofflt, if_neg h1, if_neg h2, if_pos h3,
            if_neg (by simp only [List.length_append]; omega),
            getD_append_of_lt b ext (off + 1) (by omega),
            getD_append_of_lt b ext (off + 2) (by omega)]
          exact e1
        · by_cases h4 : b.getD off 0 &&& 0xf0 = 0xe0
          · have hg : ¬((b.length : Int) ≤ (off : Int) + 3) := by
              intro hgle
              simp only [decodeLength, Int.toNat_natCast] at hr
              rw [if_neg (by omega), if_neg (by omega), if_neg h1, if_neg h2,
                if_neg h3, if_pos h4, if_pos hgle] at hr
              exact Option.noConfusion hr
            have e1 := hr
            simp only [decodeLength, Int.toNat_natCast] at e1 ⊢
            rw [if_neg (by omega), if_neg (by omega), if_neg h1, if_neg h2,
              if_neg h3, if_pos h4, if_neg hg] at e1
            rw [if_neg (by simp only [List.length_append]; omega), if_neg (by omega),
              getD_append_of_lt b ext off hofflt, if_neg h1, if_neg h2, if_neg h3,
              if_pos h4, if_neg (by simp only [List.length_append]; omega),
              getD_append_of_lt b ext (off + 1) (by omega),
              getD_append_of_lt b ext (off + 2) (by omega),
              getD_append_of_lt b ext (off + 3) (by omega)]
            exact e1
          · by_cases h5 : b.getD off 0 = 0xf0
            · have hg : ¬((b.length : Int) ≤ (off : Int) + 4) := by
                intro hgle
                simp only [decodeLength, Int.toNat_natCast] at hr
                rw [if_neg (by omega), if_neg (by omega), if_neg h1, if_neg h2,
                  if_neg h3, if_neg h4, if_pos h5, if_pos hgle] at hr
                exact Option.noConfusion hr
              have e1 := hr
              simp only [decodeLength, Int.toNat_natCast] at e1 ⊢
              rw [if_neg (by omega), if_neg (by omega), if_neg h1, if_neg h2,
                if_neg h3, if_neg h4, if_pos h5, if_neg hg] at e1
              rw [if_neg (by simp only [List.length_append]; omega), if_neg (by omega),
                getD_append_of_lt b ext off hofflt, if_neg h1, if_neg h2, if_neg h3,
                if_neg h4, if_pos h5,
                if_neg (by simp only [List.length_append]; omega),
                getD_append_of_lt b ext (off + 1) (by omega),
                getD_append_of_lt b ext (off + 2) (by omega),
                getD_append_of_lt b ext (off + 3) (by omega),
                getD_append_of_lt b ext (off + 4) (by omega)]
              exact e1
            · exfalso
              simp only [decodeLength, Int.toNat_natCast] at hr
              rw [if_neg (by omega), if_neg (by omega), if_neg h1, if_neg h2,
                if_neg h3, if_neg h4, if_neg h5] at hr
              exact Option.noConfusion hr

/-- C5 witness: the theorem applied at concrete inputs — a lone 0x80 byte is
a truncated two-byte prefix and decodes to `none`; a successful one-byte
decode of `[3, 65, 66, 67]` survives appending a further byte. -/
theorem decodeLength_truncation_safety_witness :
    decodeLength [0x80] 0 = none
    ∧ decodeLength ([3, 65, 66, 67] ++ [9]) 0 = some (3, 1) :=
  ⟨(decodeLength_truncation_safety [0x80] 0).2.1 0x80 2 (by decide) (by decide)
      (by decide),
    (decodeLength_truncation_safety [3, 65, 66, 67] 0).2.2 [9] (3, 1) (by decide)⟩

/-- A protocol word, kept as its raw byte sequence.  The source additionally
converts each word's bytes to a UTF-8 string before storing it; that per-word
conversion plays no role in framing. -/
abbrev Word := List Nat

/-- A sentence: the list of words collected before a zero-length terminator. -/
abbrev Sentence := List Word

/-- Node's `Buffer.slice(start, end)`: negative indices count from the end and
both indices are clamped to the buffer, an empty buffer resulting when the
clamped end does not exceed the clamped start. -/
def bufSlice (b : List Nat) (s e : Int) : List Nat :=
  let sc := if s < 0 then max ((b.length : Int) + s) 0 else min s (b.length : Int)
  let ec := if e < 0 then max ((b.length : Int) + e) 0 else min e (b.length : Int)
  (b.take ec.toNat).drop sc.toNat

/-- The ways the inner word loop of `parseSentences` can stop: the
`while (offset < buffer.length)` condition fails; `decodeLength` returns null
and the loop breaks; a zero-length word ends the sentence; or an incomplete
word payload makes the whole function return, remembering where the word's
length prefix started. -/
inductive InnerExit where
  | exitCond : Sentence → Int → InnerExit
  | nullBreak : Sentence → Int → InnerExit
  | termBreak : Sentence → Int → InnerExit
  | incomplete : Int → InnerExit
deriving DecidableEq

/-- The inner word loop of `parseSentences`, one fuel unit per iteration.
`none` means the fuel ran out before the loop stopped. -/
def parseWordsLoop : Nat → List Nat → Int → Sentence → Option InnerExit
  | 0, _, _, _ => none
  | fuel + 1, b, off, sent =>
    if off < (b.length : Int) then
      match decodeLength b off with
      | none => some (InnerExit.nullBreak sent off)
      | some (len, used) =>
        if len = 0 then some (InnerExit.termBreak sent (off + used))
        else if (b.length : Int) < (off + used) + len then
          some (InnerExit.incomplete ((off + used) - used))
        else
          parseWordsLoop fuel b ((off + used) + len)
            (sent ++ [bufSlice b (off + used) ((off + used) + len)])
    else some (InnerExit.exitCond sent off)

/-- The outer sentence loop of `parseSentences`, one fuel unit per iteration;
each iteration runs the inner word loop on an empty sentence, pushes a
non-empty sentence, and the `incomplete` exit returns the sentences found so
far with `buffer.slice(offset - bytesUsed)` as the remainder.  `none` means
the fuel ran out: the source loop, which has no fuel, never returns on such
an input. -/
def parseLoop : Nat → List Nat → Int → List Sentence → Option (List Sentence × List Nat)
  | 0, _, _, _ => none
  | fuel + 1, b, off, acc =>
    if off < (b.length : Int) then
      match parseWordsLoop (fuel + 1) b off [] with
      | none => none
      | some (InnerExit.incomplete start) => some (acc, bufSlice b start (b.length : Int))
      | some (InnerExit.exitCond sent off2) =>
        parseLoop fuel b off2 (if sent.isEmpty then acc else acc ++ [sent])
      | some (InnerExit.nullBreak sent off2) =>
        parseLoop fuel b off2 (if sent.isEmpty then acc else acc ++ [sent])
      | some (InnerExit.termBreak sent off2) =>
        parseLoop fuel b off2 (if sent.isEmpty then acc else acc ++ [sent])
    else some (acc, [])

/-- `parseSentences(buffer)`, run with enough fuel for every terminating
execution (each consuming iteration advances the offset by at least one
byte). -/
def parseSentences (b : List Nat) : Option (List Sentence × List Nat) :=
  parseLoop (b.length + 2) b 0 []

/-- The Session's data cycle from `onData`: append the chunk to the
reassembly buffer, run `parseSentences`, keep its remainder as the new
buffer, and accumulate the emitted sentences; `none` if some call never
returns. -/
def feedChunksGo : List (List Nat) → List Nat → List Sentence →
    Option (List Sentence × List Nat)
  | [], buf, acc => some (acc, buf)
  | chunk :: rest, buf, acc =>
    match parseSentences (buf ++ chunk) with
    | none => none
    | some (ss, rem) => feedChunksGo rest rem (acc ++ ss)

/-- Feed a list of chunks through a fresh Session's accumulate-and-parse
cycle, returning the ordered sentences emitted and the final buffer. -/
def feedChunks (chunks : List (List Nat)) : Option (List Sentence × List Nat) :=
  feedChunksGo chunks [] []

theorem parseWordsLoop_mono (fuel : Nat) :
    ∀ (b : List Nat) (off : Int) (sent : Sentence) (r : InnerExit),
      parseWordsLoop fuel b off sent = some r →
      parseWordsLoop (fuel + 1) b off sent = some r := by
  induction fuel with
  | zero =>
    intro b off sent r h
    simp [parseWordsLoop] at h
  | succ n ih =>
    intro b off sent r h
    rw [parseWordsLoop] at h ⊢
    by_cases hc : off < (b.length : Int)
    · rw [if_pos hc] at h ⊢
      cases hd : decodeLength b off with
      | none => rw [hd] at h; exact h
      | some lu =>
        obtain ⟨len, used⟩ := lu
        rw [hd] at h
        dsimp only at h ⊢
        by_cases hz : len = 0
        · rw [if_pos hz] at h ⊢; exact h
        · rw [if_neg hz] at h ⊢
          by_cases hinc : (b.length : Int) < (off + used) + len
          · rw [if_pos hinc] at h ⊢; exact h
          · rw [if_neg hinc] at h ⊢
            exact ih b ((off + used) + len)
              (sent ++ [bufSlice b (off + used) ((off + used) + len)]) r h
    · rw [if_neg hc] at h ⊢; exact h

theorem parseLoop_mono (fuel : Nat) :
    ∀ (b : List Nat) (off : Int) (acc : List Sentence)
      (r : List Sentence × List Nat),
      parseLoop fuel b off acc = some r →
      parseLoop (fuel + 1) b off acc = some r := by
  induction fuel with
  | zero =>
    intro b off acc r h
    simp [parseLoop] at h
  | succ n ih =>
    intro b off acc r h
    rw [parseLoop] at h ⊢
    by_cases hc : off < (b.length : Int)
    · rw [if_pos hc] at h ⊢
      cases hinner : parseWordsLoop (n + 1) b off [] with
      | none => rw [hinner] at h; exact Option.noConfusion h
      | some e =>
        rw [hinner] at h
        rw [parseWordsLoop_mono (n + 1) b off [] e hinner]
        cases e with
        | incomplete start => exact h
        | exitCond sent off2 => exact ih b off2 _ r h
        | nullBreak sent off2 => exact ih b off2 _ r h
        | termBreak sent off2 => exact ih b off2 _ r h
    · rw [if_neg hc] at h ⊢; exact h

theorem parseLoop_fuel_le (f g : Nat) (hle : f ≤ g) :
    ∀ (b : List Nat) (off : Int) (acc : List Sentence)
      (r : List Sentence × List Nat),
      parseLoop f b off acc = some r → parseLoop g b off acc = some r := by
  induction g with
  | zero =>
    intro b off acc r h
    have : f = 0 := by omega
    subst this
    exact h
  | succ n ih =>
    intro b off acc r h
    rcases Nat.lt_or_ge f (n + 1) with hlt | hge
    · exact parseLoop_mono n b off acc r (ih (by omega) b off acc r h)
    · have : f = n + 1 := by omega
      subst this
      exact h

/-- C2 (refuted, code bug): the framer does not terminate on every input.
On the single byte 0x80 — a truncated two-byte length prefix —
`decodeLength` returns `none`, the inner loop breaks without advancing the
offset, and the outer `while (offset < buffer.length)` loop of
`parseSentences` spins forever: no amount of fuel makes the embedded loop
return. -/
theorem framer_hangs_on_truncated_prefix :
    decodeLength [0x80] 0 = none
    ∧ ∀ fuel : Nat, parseLoop fuel [0x80] 0 [] = none := by
  refine ⟨by decide, ?_⟩
  intro fuel
  induction fuel with
  | zero => rfl
  | succ n ih =>
    rw [parseLoop]
    rw [if_pos (by decide)]
    have hinner : parseWordsLoop (n + 1) [0x80] 0 [] =
        some (InnerExit.nullBreak [] 0) := by
      rw [parseWordsLoop]
      rw [if_pos (by decide)]
      have hd : decodeLength [0x80] 0 = none := by decide
      rw [hd]
    rw [hinner]
    show parseLoop n [0x80] 0 [] = none
    exact ih

/-- C3 (refuted, code bug): on the buffer `[1, 65]` — one complete word "A"
with no zero-length sentence terminator — `parseSentences` emits `[["A"]]`
as a finished sentence and consumes the whole buffer, instead of emitting
nothing and preserving the undecoded suffix `[1, 65]` verbatim as the claim
requires.  The result is fuel-independent. -/
theorem parseSentences_flushes_unterminated_sentence :
    parseSentences [1, 65] = some ([[[65]]], [])
    ∧ (∀ f : Nat, parseLoop (f + 2) [1, 65] 0 [] = some ([[[65]]], []))
    ∧ (some ([[[65]]], ([] : List Nat)) ≠
        some (([] : List Sentence), [1, 65])) := by
  refine ⟨by decide, ?_, by decide⟩
  intro f
  exact parseLoop_fuel_le 2 (f + 2) (by omega) [1, 65] 0 [] _ (by decide)

/-- C1 (refuted, code bug): chunking is not invariant.  The byte stream
`[1, 65, 1, 66, 0]` — the single sentence ["A", "B"] — fed to the Session's
accumulate/parse/retain cycle as one chunk yields one two-word sentence, but
split into the chunks `[1, 65]` and `[1, 66, 0]` it yields two one-word
sentences, because the framer flushes a sentence whenever the buffer ends at
a word boundary.  Worse, words can be lost outright: the stream
`[1, 65, 3, 66, 66, 66, 0]` (sentence ["A", "BBB"]) split after the fourth
byte drops the already-decoded word "A", because the incomplete-payload
return path discards the words of the current sentence. -/
theorem chunking_not_invariant :
    ([1, 65] ++ [1, 66, 0] = ([1, 65, 1, 66, 0] : List Nat))
    ∧ feedChunks [[1, 65, 1, 66, 0]] = some ([[[65], [66]]], [])
    ∧ feedChunks [[1, 65], [1, 66, 0]] = some ([[[65]], [[66]]], [])
    ∧ ([[[65], [66]]] : List Sentence) ≠ [[[65]], [[66]]]
    ∧ ([1, 65, 3, 66] ++ [66, 66, 0] = ([1, 65, 3, 66, 66, 66, 0] : List Nat))
    ∧ feedChunks [[1, 65, 3, 66, 66, 66, 0]] = some ([[[65], [66, 66, 66]]], [])
    ∧ feedChunks [[1, 65, 3, 66], [66, 66, 0]] = some ([[[66, 66, 66]]], []) := by
  exact ⟨rfl, by decide, by decide, by decide, rfl, by decide, by decide⟩

/-- JavaScript `haystack.includes(needle)` on lists of characters. -/
def containsSub (needle : List Char) : List Char → Bool
  | [] => needle.isPrefixOf []
  | c :: rest => needle.isPrefixOf (c :: rest) || containsSub needle rest

/-- JavaScript `s.includes(pat)`. -/
def strIncludes (s pat : String) : Bool := containsSub pat.data s.data

/-- The command normalization at the top of `runQuery`:
`cmd.startsWith("/") ? cmd : "/" + cmd` (the test expressed on the
character list). -/
def normalizeCmd (cmd : String) : String :=
  if "/".data.isPrefixOf cmd.data then cmd else "/" ++ cmd

/-- `isQuery` from `_sendRaw`:
`cmd.includes("/print") || cmd.includes("/getall")`. -/
def isQueryCmd (cmd : String) : Bool :=
  strIncludes cmd "/print" || strIncludes cmd "/getall"

/-- `isLogin` from `_sendRaw`: `cmd === "/login"`. -/
def isLoginCmd (cmd : String) : Bool := cmd == "/login"

/-- The `paramPrefix` selection of `_sendRaw`: `=` for `/login`, `?` for
query commands, `=` otherwise. -/
def paramMark (cmd : String) : String :=
  if isLoginCmd cmd then "=" else if isQueryCmd cmd then "?" else "="

/-- `String(k).replace(/^[=?]+/, "")` — strip any leading `=`/`?` characters
already present in a parameter key. -/
def stripKeyMarks (k : String) : String :=
  String.mk (k.data.dropWhile (fun c => c == '=' || c == '?'))

/-- One rendered parameter word from `_sendRaw`:
`paramPrefix + normalizedKey + "=" + normalizedVal`, where an `undefined`
value becomes the empty string. -/
def renderParam (mark k : String) (v : Option String) : String :=
  mark ++ stripKeyMarks k ++ "=" ++ v.getD ""

/-- Modelled from the claim's words, for comparison only: a command "denotes
a listing/query operation" when it contains `print` or `getall` (without the
leading slash the code actually tests). -/
def specIsQueryCmd (cmd : String) : Bool :=
  strIncludes cmd "print" || strIncludes cmd "getall"

theorem strData_append (s t : String) : (s ++ t).data = s.data ++ t.data := by
  cases s; cases t; rfl

theorem paramMark_eq_ite (cmd : String) :
    paramMark cmd = if isQueryCmd cmd then "?" else "=" := by
  by_cases hl : isLoginCmd cmd = true
  · have hcmd : cmd = "/login" := by
      have := hl
      simp only [isLoginCmd] at this
      exact eq_of_beq this
    subst hcmd
    decide
  · simp [paramMark, hl]

/-- C7 counterexample: the claim's prefix rule fails on the command
`/xprint` — it contains `print` (so the claim demands the `?` prefix) but
not `/print` (what the code actually tests), and the code renders its
parameters with `=`. -/
theorem paramMark_substring_counterexample :
    specIsQueryCmd "/xprint" = true ∧ strIncludes "/xprint" "print" = true
    ∧ paramMark "/xprint" = "=" ∧ paramMark "/xprint" ≠ "?" := by
  decide

/-- C7 amended: each parameter word is rendered with prefix `?` exactly when
the command contains the substring "/print" or "/getall" (with the leading
slash), and with `=` otherwise, including for `/login`; the choice depends
only on the command string. -/
theorem paramMark_slash_substring :
    ∀ (cmd k : String) (v : Option String),
      (isQueryCmd cmd = (strIncludes cmd "/print" || strIncludes cmd "/getall"))
      ∧ ((paramMark cmd = "?") ↔ isQueryCmd cmd = true)
      ∧ (renderParam (paramMark cmd) k v).data.head? =
          some (if isQueryCmd cmd then '?' else '=') := by
  intro cmd k v
  refine ⟨rfl, ?_, ?_⟩
  · rw [paramMark_eq_ite]
    cases hq : isQueryCmd cmd
    · simp [show ("=" : String) ≠ "?" from by decide]
    · simp
  · rw [paramMark_eq_ite]
    cases hq : isQueryCmd cmd
    · simp [renderParam, strData_append, show ("=" : String).data = ['='] from rfl]
    · simp [renderParam, strData_append, show ("?" : String).data = ['?'] from rfl]

/-- The options record destructured at the top of `_sendRaw`. -/
structure SendOptions where
  requestTimeoutMs : Nat
  collectAll : Bool
  retryOnNotLoggedIn : Bool
deriving DecidableEq

/-- `sentence.slice(1).join(" ")` — the joined `!fatal` message. -/
def joinFatalMsg (sentence : List String) : String :=
  String.intercalate " " (sentence.drop 1)

/-- The case folding performed by the `i` flag of `/not logged in/i`: ASCII
letters compare case-insensitively (the pattern itself is pure ASCII, so
non-ASCII characters can never match it). -/
def lowerChar (c : Char) : Char :=
  if 'A' ≤ c ∧ c ≤ 'Z' then Char.ofNat (c.toNat + 32) else c

/-- `/not logged in/i.test(msg)`: case-insensitive substring search. -/
def testNotLoggedIn (msg : String) : Bool :=
  containsSub "not logged in".data (msg.data.map lowerChar)

/-- What the `!fatal` handler in `_sendRaw` decides to do: re-login and
resubmit the command with the given options, or fail with an error
message. -/
inductive FatalAction where
  | retryLogin : String → List (String × Option String) → SendOptions → FatalAction
  | failCmd : String → FatalAction
deriving DecidableEq

/-- The `!fatal` branch of `_sendRaw`'s `onData` handler: if retry is enabled
for this call, the joined message matches "not logged in" case-insensitively,
credentials are stored, and the command is not itself `/login`, re-run login
and resubmit the identical command with `retryOnNotLoggedIn: false`;
otherwise fail with a connection-level fatal error. -/
def handleFatal (cmd : String) (params : List (String × Option String))
    (opts : SendOptions) (hasCredentials : Bool) (sentence : List String) :
    FatalAction :=
  let fatalMsg := joinFatalMsg sentence
  if opts.retryOnNotLoggedIn && testNotLoggedIn fatalMsg && hasCredentials
      && !(isLoginCmd cmd) then
    FatalAction.retryLogin cmd params
      ⟨opts.requestTimeoutMs, opts.collectAll, false⟩
  else
    FatalAction.failCmd ("RouterOS Fatal Error: " ++ fatalMsg)

/-- C6: a `!fatal` whose joined message matches "not logged in"
(case-insensitively) while credentials are stored, the command is not itself
`/login`, and retry is enabled, re-runs login and resubmits the identical
original command (same command string, same parameters, same timeout and
collect flags) with retry disabled; with retry disabled — as it is on the
resubmission — every `!fatal` fails the command with a connection-level
fatal error, so at most one retry ever happens; and any `!fatal` missing one
of the conditions likewise fails the command. -/
theorem fatal_not_logged_in_retry_policy :
    ∀ (cmd : String) (params : List (String × Option String))
      (opts : SendOptions) (hasCreds : Bool) (sentence : List String),
      (opts.retryOnNotLoggedIn = true →
        testNotLoggedIn (joinFatalMsg sentence) = true →
        hasCreds = true → isLoginCmd cmd = false →
        handleFatal cmd params opts hasCreds sentence =
          FatalAction.retryLogin cmd params
            ⟨opts.requestTimeoutMs, opts.collectAll, false⟩)
      ∧ (opts.retryOnNotLoggedIn = false →
        handleFatal cmd params opts hasCreds sentence =
          FatalAction.failCmd ("RouterOS Fatal Error: " ++ joinFatalMsg sentence))
      ∧ (testNotLoggedIn (joinFatalMsg sentence) = false →
        handleFatal cmd params opts hasCreds sentence =
          FatalAction.failCmd ("RouterOS Fatal Error: " ++ joinFatalMsg sentence))
      ∧ (hasCreds = false →
        handleFatal cmd params opts hasCreds sentence =
          FatalAction.failCmd ("RouterOS Fatal Error: " ++ joinFatalMsg sentence))
      ∧ (isLoginCmd cmd = true →
        handleFatal cmd params opts hasCreds sentence =
          FatalAction.failCmd ("RouterOS Fatal Error: " ++ joinFatalMsg sentence)) := by
  intro cmd params opts hasCreds sentence
  refine ⟨?_, ?_, ?_, ?_, ?_⟩
  · intro h1 h2 h3 h4
    simp [handleFatal, h1, h2, h3, h4]
  · intro h1
    simp [handleFatal, h1]
  · intro h2
    simp [handleFatal, h2]
  · intro h3
    simp [handleFatal, h3]
  · intro h4
    simp [handleFatal, h4]

/-- C6 witness: a concrete "not logged in" `!fatal` with retry enabled is
retried with retry disabled, and the same `!fatal` arriving during the
resubmission (retry disabled) fails the command. -/
theorem fatal_not_logged_in_retry_policy_witness :
    handleFatal "/ppp/secret/print" [] ⟨5000, false, true⟩ true
        ["!fatal", "Not Logged In"] =
      FatalAction.retryLogin "/ppp/secret/print" [] ⟨5000, false, false⟩
    ∧ handleFatal "/ppp/secret/print" [] ⟨5000, false, false⟩ true
        ["!fatal", "Not Logged In"] =
      FatalAction.failCmd
        ("RouterOS Fatal Error: " ++ joinFatalMsg ["!fatal", "Not Logged In"]) :=
  ⟨(fatal_not_logged_in_retry_policy "/ppp/secret/print" [] ⟨5000, false, true⟩
      true ["!fatal", "Not Logged In"]).1 rfl (by decide) rfl (by decide),
    (fatal_not_logged_in_retry_policy "/ppp/secret/print" [] ⟨5000, false, false⟩
      true ["!fatal", "Not Logged In"]).2.1 rfl⟩

/-- `isMonitorCommand` from `_sendRaw` / `runQuery`:
`cmd.includes("/monitor")`. -/
def isMonitorCmd (cmd : String) : Bool := strIncludes cmd "/monitor"

/-- The `requestTimeoutMs` destructuring default in `_sendRaw`: an explicit
option wins; otherwise 5000 for monitor-style commands, else the
connection timeout. -/
def resolveRequestTimeout (connTimeout : Nat) (cmd : String)
    (explicitMs : Option Nat) : Nat :=
  explicitMs.getD (if isMonitorCmd cmd then 5000 else connTimeout)

/-- The per-command timeout a command issued through `runQuery` is armed
with: `runQuery` always passes `requestTimeoutMs: 5000` to `_sendRaw`. -/
def runQueryTimeoutMs (connTimeout : Nat) (cmd : String) : Nat :=
  resolveRequestTimeout connTimeout (normalizeCmd cmd) (some 5000)

/-- C9 (refuted, code bug): `runQuery` hardcodes `requestTimeoutMs: 5000`
for every command, so the non-monitor command `/ppp/secret/print` is armed
with the short 5000 ms deadline instead of the 30000 ms connection timeout
the claim prescribes; `_sendRaw`'s own destructuring default (exercised only
when no explicit option is passed) shows the intended selection the claim
describes. -/
theorem runQuery_timeout_always_short :
    isMonitorCmd (normalizeCmd "/ppp/secret/print") = false
    ∧ runQueryTimeoutMs 30000 "/ppp/secret/print" = 5000
    ∧ resolveRequestTimeout 30000 (normalizeCmd "/ppp/secret/print") none = 30000
    ∧ (5000 : Nat) ≠ 30000 := by
  decide

/-- The value of one hexadecimal digit, if any. -/
def hexDigitVal (c : Char) : Option Nat :=
  if '0' ≤ c ∧ c ≤ '9' then some (c.toNat - '0'.toNat)
  else if 'a' ≤ c ∧ c ≤ 'f' then some (c.toNat - 'a'.toNat + 10)
  else if 'A' ≤ c ∧ c ≤ 'F' then some (c.toNat - 'A'.toNat + 10)
  else none

/-- Node's `Buffer.from(str, "hex")`: decode two characters per byte,
stopping at the first invalid pair and dropping a trailing lone digit. -/
def hexDecode : List Char → List Nat
  | c1 :: c2 :: rest =>
    match hexDigitVal c1, hexDigitVal c2 with
    | some hi, some lo => (16 * hi + lo) :: hexDecode rest
    | _, _ => []
  | _ => []

/-- `Buffer.from(word, "utf8")` as a byte list. -/
def utf8Bytes (s : String) : List Nat := s.toUTF8.toList.map (fun b => b.toNat)

/-- The accumulating state of `crypto.createHash("md5")`: `update` appends
input bytes; `digest` applies MD5 (kept abstract — it is Node library code)
to everything fed so far. -/
structure HashStream where
  fed : List Nat

/-- `hash.update(buf)`. -/
def HashStream.update (h : HashStream) (bs : List Nat) : HashStream :=
  ⟨h.fed ++ bs⟩

/-- The legacy login response computation from `login`:
`md5.update(Buffer.from([0])); md5.update(Buffer.from(password, "utf8"));
md5.update(challengeBuf); "00" + md5.digest("hex")`, with the MD5
digest-to-hex function abstract. -/
def legacyLoginResponse (md5Hex : List Nat → String)
    (password challengeHex : String) : String :=
  let challengeBuf := hexDecode challengeHex.data
  let h0 : HashStream := ⟨[]⟩
  let h1 := h0.update [0]
  let h2 := h1.update (utf8Bytes password)
  let h3 := h2.update challengeBuf
  "00" ++ md5Hex h3.fed

/-- Modelled from the spec's words, for comparison: the literal string "00"
concatenated with the hex MD5 digest of the byte sequence
0x00 ‖ password(UTF-8) ‖ hex-decoded challenge. -/
def specLegacyResponse (md5Hex : List Nat → String)
    (password challengeHex : String) : String :=
  "00" ++ md5Hex (0 :: (utf8Bytes password ++ hexDecode challengeHex.data))

/-- C8: for every password and challenge string, the streamed three-update
MD5 computation of the source feeds the digest exactly the byte sequence
0x00 ‖ UTF-8(password) ‖ hexDecode(challenge), so the computed login
response equals "00" ++ hex-MD5 of that sequence, whatever MD5 function the
crypto library implements. -/
theorem legacy_login_response_spec :
    ∀ (md5Hex : List Nat → String) (password challengeHex : String),
      legacyLoginResponse md5Hex password challengeHex =
        specLegacyResponse md5Hex password challengeHex := by
  intro md5Hex password challengeHex
  simp [legacyLoginResponse, specLegacyResponse, HashStream.update]

end MikroRouterOS
